import Mathlib

/-!
# CHIRPS rainfall deviation script: a shallow embedding

The script `CHIRPS.js` is a straight-line Google Earth Engine program: every
`var` is an expression over images and image collections.  The embedding
follows the script variable by variable.  The Earth Engine operations the
script calls are given their documented pixel-wise meaning:

* an image band is a partial field of numbers, a masked ("no-data") pixel is
  `none`;
* binary image arithmetic and comparisons are masked where either operand is
  masked;
* `divide` returns `0` for a division by `0`;
* `where` replaces the input pixel where the test pixel is non-zero and leaves
  a masked input pixel masked;
* `filterDate(start, end)` keeps `start ≤ system:time_start < end`;
* the collection reducers `sum`, `mean`, `stdDev` skip masked pixels,
  `stdDev` being the population standard deviation;
* a grouped `sum` in `reduceRegion` adds the (weighted) second band into the
  accumulator of the group named by the first band.

Numbers are taken in an arbitrary linearly ordered field `K`, so that every
definition runs on `ℚ`; only the square root of `ee.Reducer.stdDev` needs `ℝ`.
-/

namespace CHIRPS

/-! ## Pixels and fields -/

/-- Value of one band at one pixel: `none` is a masked (no-data) pixel. -/
abbrev Pixel (K : Type) := Option K

/-- A single-band image over the pixel grid `P`. -/
abbrev Field (P K : Type) := P → Pixel K

namespace Pixel

variable {K : Type} [LinearOrderedField K]

/-- Binary pixel operation: masked as soon as one operand is masked. -/
def lift2 (f : K → K → K) : Pixel K → Pixel K → Pixel K
  | some a, some b => some (f a b)
  | _, _ => none

/-- Truth value of a comparison as a pixel value. -/
def ofProp (c : Prop) [Decidable c] : K := if c then 1 else 0

/-- `ee.Image.subtract` at a pixel. -/
def subtract : Pixel K → Pixel K → Pixel K := lift2 (fun a b => a - b)

/-- `ee.Image.multiply` at a pixel. -/
def multiply : Pixel K → Pixel K → Pixel K := lift2 (fun a b => a * b)

/-- `ee.Image.divide` at a pixel: "returning 0 for division by 0". -/
def divide : Pixel K → Pixel K → Pixel K :=
  lift2 (fun a b => if b = 0 then 0 else a / b)

/-- `ee.Image.lt` at a pixel. -/
def lt : Pixel K → Pixel K → Pixel K := lift2 (fun a b => ofProp (a < b))

/-- `ee.Image.lte` at a pixel. -/
def lte : Pixel K → Pixel K → Pixel K := lift2 (fun a b => ofProp (a ≤ b))

/-- `ee.Image.gt` at a pixel. -/
def gt : Pixel K → Pixel K → Pixel K := lift2 (fun a b => ofProp (a > b))

/-- `ee.Image.gte` at a pixel. -/
def gte : Pixel K → Pixel K → Pixel K := lift2 (fun a b => ofProp (a ≥ b))

/-- `ee.Image.and` at a pixel: 1 iff both values are non-zero. -/
def and : Pixel K → Pixel K → Pixel K :=
  lift2 (fun a b => ofProp (a ≠ 0 ∧ b ≠ 0))

/-- `ee.Image.where` at a pixel: a masked input stays masked; where test and
value are both valid and the test is non-zero the value replaces the input;
otherwise the input pixel is kept. -/
def replaceWhere (input test value : Pixel K) : Pixel K :=
  match input with
  | none => none
  | some x =>
    match test, value with
    | some t, some v => if t ≠ 0 then some v else some x
    | _, _ => some x

end Pixel

namespace Field

variable {P K : Type} [LinearOrderedField K]

/-- A number used as an image: the constant, nowhere masked field. -/
def const (k : K) : Field P K := fun _ => some k

/-- `image.subtract(other)`. -/
def subtract (a b : Field P K) : Field P K := fun px => Pixel.subtract (a px) (b px)

/-- `image.multiply(other)`. -/
def multiply (a b : Field P K) : Field P K := fun px => Pixel.multiply (a px) (b px)

/-- `image.divide(other)`. -/
def divide (a b : Field P K) : Field P K := fun px => Pixel.divide (a px) (b px)

/-- `image.lt(other)`. -/
def lt (a b : Field P K) : Field P K := fun px => Pixel.lt (a px) (b px)

/-- `image.lte(other)`. -/
def lte (a b : Field P K) : Field P K := fun px => Pixel.lte (a px) (b px)

/-- `image.gt(other)`. -/
def gt (a b : Field P K) : Field P K := fun px => Pixel.gt (a px) (b px)

/-- `image.gte(other)`. -/
def gte (a b : Field P K) : Field P K := fun px => Pixel.gte (a px) (b px)

/-- `image.and(other)`. -/
def and (a b : Field P K) : Field P K := fun px => Pixel.and (a px) (b px)

/-- `image.where(test, value)`. -/
def replaceWhere (input test value : Field P K) : Field P K :=
  fun px => Pixel.replaceWhere (input px) (test px) (value px)

end Field


/-! ## Dates and collections (script lines 17-73) -/

/-- Days from 1970-01-01 to the civil (proleptic Gregorian) date `y-m-d`. -/
def daysFromCivil (y m d : Int) : Int :=
  let y1 := if m ≤ 2 then y - 1 else y
  let era := y1 / 400
  let yoe := y1 - era * 400
  let mp := if m > 2 then m - 3 else m + 9
  let doy := (153 * mp + 2) / 5 + d - 1
  let doe := yoe * 365 + yoe / 4 - yoe / 100 + doy
  era * 146097 + doe - 719468

/-- `ee.Date.fromYMD(year, month, day)`: midnight UTC of the date, in
milliseconds since 1970-01-01T00:00:00Z. -/
def Date.fromYMD (year month day : Int) : Int := daysFromCivil year month day * 86400000

/-- Milliseconds in a day. -/
def millisPerDay : Int := 86400000

/-- Day of the month of the civil (proleptic Gregorian) date that lies `days`
days after 1970-01-01, the inverse computation of `daysFromCivil`. -/
def dayOfMonth (days : Int) : Int :=
  let z := days + 719468
  let era := z / 146097
  let doe := z - era * 146097
  let yoe := (doe - doe / 1460 + doe / 36524 - doe / 146096) / 365
  let doy := doe - (365 * yoe + yoe / 4 - yoe / 100)
  let mp := (5 * doy + 2) / 153
  doy - (153 * mp + 2) / 5 + 1

/-- A time stamp of the archive the script loads, `UCSB-CHG/CHIRPS/PENTAD`: six
pentads a month, stamped at midnight UTC of day 1, 6, 11, 16, 21 and 26. -/
def isPentadStamp (t : Int) : Bool :=
  decide (t % millisPerDay = 0) &&
    decide (dayOfMonth (t / millisPerDay) ∈ ([1, 6, 11, 16, 21, 26] : List Int))

/-- An image of the archive: its `system:time_start` and its `precipitation` band. -/
structure Image (P K : Type) where
  /-- The property `system:time_start`, milliseconds since the epoch. -/
  time_start : Int
  /-- The band `precipitation`. -/
  precipitation : Field P K

/-- An annual total: the summed band together with the property `year`. -/
structure AnnualImage (P K : Type) where
  /-- The property set by `.set('year', year)`. -/
  year : Int
  /-- The band `precipitation` of the sum. -/
  precipitation : Field P K

/-- Script line 18: `'1991-01-01'`. -/
def baselineStart : Int := Date.fromYMD 1991 1 1

/-- Script line 19: `'2020-12-31'`. -/
def baselineEnd : Int := Date.fromYMD 2020 12 31

/-- Script line 20: `'2023-01-01'`. -/
def currentYear : Int := Date.fromYMD 2023 1 1

/-- Script line 21: `'2023-12-31'`. -/
def currentYearEnd : Int := Date.fromYMD 2023 12 31

/-- `ee.List.sequence(start, end)`: the numbers from `start` to `end`, both included. -/
def sequence (start stop : Int) : List Int :=
  (List.range (stop - start + 1).toNat).map (fun i => start + (i : Int))

section Collections

variable {P K : Type}

/-- `collection.filterDate(start, end)`: keeps the images whose
`system:time_start` is at or after `start` (inclusive) and before `end`
(exclusive), in collection order. -/
def filterDate (start stop : Int) (collection : List (Image P K)) : List (Image P K) :=
  collection.filter (fun img => decide (start ≤ img.time_start ∧ img.time_start < stop))

/-- Script lines 38-39: `chirpsCollection.filterDate(baselineStart, baselineEnd)`. -/
def baselineCollection (chirpsCollection : List (Image P K)) : List (Image P K) :=
  filterDate baselineStart baselineEnd chirpsCollection

/-- Script line 44: `ee.List.sequence(1991, 2020)`. -/
def years : List Int := sequence 1991 2020

/-- The unmasked values among a list of pixel values. -/
def validValues (vals : List (Pixel K)) : List K := vals.filterMap id

variable [LinearOrderedField K]

/-- `ee.Reducer.sum` over the values of one pixel: masked values are skipped,
the result is masked when no value is valid. -/
def Reducer.sum (vals : List (Pixel K)) : Pixel K :=
  match validValues vals with
  | [] => none
  | x :: xs => some (x :: xs).sum

/-- `ee.Reducer.mean` over the values of one pixel. -/
def Reducer.mean (vals : List (Pixel K)) : Pixel K :=
  match validValues vals with
  | [] => none
  | x :: xs => some ((x :: xs).sum / ((x :: xs).length : K))

/-- `ee.Reducer.variance` over the values of one pixel: the population
variance, mean squared distance to the mean over the `n` valid values. -/
def Reducer.variance (vals : List (Pixel K)) : Pixel K :=
  match validValues vals with
  | [] => none
  | x :: xs =>
    let mean := (x :: xs).sum / ((x :: xs).length : K)
    some (((x :: xs).map (fun v => (v - mean) ^ 2)).sum / ((x :: xs).length : K))

/-- `imageCollection.select('precipitation').sum()`: pixel-wise sum of the band;
a pixel that no image of the collection covers with a valid value, and so
every pixel of the sum of an empty collection, is masked. -/
def collectionSum (collection : List (Image P K)) : Field P K :=
  fun px => Reducer.sum (collection.map (fun img => img.precipitation px))

/-- Script lines 47-54, the body of the function mapped over `years`: the
images of `baselineCollection` from 1 January of `year` up to 31 December of
`year` (as `filterDate` takes it), summed and tagged with `year`. -/
def yearlySum (baselineCollection : List (Image P K)) (year : Int) : AnnualImage P K :=
  let yearStart := Date.fromYMD year 1 1
  let yearEnd := Date.fromYMD year 12 31
  { year := year
    precipitation := collectionSum (filterDate yearStart yearEnd baselineCollection) }

/-- Script lines 46-57: `years.map(function(year) ...)`. -/
def annualPrecipBaseline (baselineCollection : List (Image P K)) : List (AnnualImage P K) :=
  years.map (yearlySum baselineCollection)

/-- Script line 60: `ee.ImageCollection.fromImages(annualPrecipBaseline)`. -/
def annualCollection (annualPrecipBaseline : List (AnnualImage P K)) : List (AnnualImage P K) :=
  annualPrecipBaseline

/-- Script line 61: `annualCollection.mean()`. -/
def thirtyYearMean (annualCollection : List (AnnualImage P K)) : Field P K :=
  fun px => Reducer.mean (annualCollection.map (fun img => img.precipitation px))

/-- Script lines 69-72:
`chirpsCollection.filterDate(currentYear, currentYearEnd).select('precipitation').sum()`. -/
def currentYearPrecip (chirpsCollection : List (Image P K)) : Field P K :=
  collectionSum (filterDate currentYear currentYearEnd chirpsCollection)

/-- The annual total of the specification (section 4.1): the sum of the images
stamped within the closed interval of days from 1 January to 31 December of
`year`, that is from midnight of 1 January up to the end of 31 December. -/
def aggregateYearClosed (series : List (Image P K)) (year : Int) : Field P K :=
  collectionSum (series.filter (fun img =>
    decide (Date.fromYMD year 1 1 ≤ img.time_start ∧
      img.time_start < Date.fromYMD year 12 31 + millisPerDay)))

end Collections

/-- `ee.Reducer.stdDev` over the values of one pixel: the square root of the
population variance. -/
noncomputable def Reducer.stdDev (vals : List (Pixel ℝ)) : Pixel ℝ :=
  (Reducer.variance vals).map Real.sqrt

/-- Script line 92: `annualCollection.reduce(ee.Reducer.stdDev())`. -/
noncomputable def standardDeviation {P : Type} (annualCollection : List (AnnualImage P ℝ)) :
    Field P ℝ :=
  fun px => Reducer.stdDev (annualCollection.map (fun img => img.precipitation px))

/-! ## Rainfall deviation (script lines 81-95) -/

section Deviation

variable {P K : Type} [LinearOrderedField K]

/-- Script line 82: `currentYearPrecip.subtract(thirtyYearMean)`. -/
def absoluteDeviation (currentYearPrecip thirtyYearMean : Field P K) : Field P K :=
  currentYearPrecip.subtract thirtyYearMean

/-- Script lines 86-88:
`currentYearPrecip.subtract(thirtyYearMean).divide(thirtyYearMean).multiply(100)`. -/
def percentageDeviation (currentYearPrecip thirtyYearMean : Field P K) : Field P K :=
  ((currentYearPrecip.subtract thirtyYearMean).divide thirtyYearMean).multiply (Field.const 100)

/-- Script lines 93-94:
`currentYearPrecip.subtract(thirtyYearMean).divide(standardDeviation)`. -/
def zScore (currentYearPrecip thirtyYearMean standardDeviation : Field P K) : Field P K :=
  (currentYearPrecip.subtract thirtyYearMean).divide standardDeviation

end Deviation

/-! ## Drought / wet classification (script lines 216-224) -/

section Classification

variable {P K : Type} [LinearOrderedField K]

/-- Script lines 216-223: the chain of seven `where` replacements.  Every test
is taken on the unmodified `percentageDeviation`, the replacements thread
through the image being built. -/
def conditions (percentageDeviation : Field P K) : Field P K :=
  ((((((percentageDeviation
    |>.replaceWhere (percentageDeviation.lt (Field.const (-30))) (Field.const 1))
    |>.replaceWhere ((percentageDeviation.gte (Field.const (-30))).and
        (percentageDeviation.lt (Field.const (-20)))) (Field.const 2))
    |>.replaceWhere ((percentageDeviation.gte (Field.const (-20))).and
        (percentageDeviation.lt (Field.const (-10)))) (Field.const 3))
    |>.replaceWhere ((percentageDeviation.gte (Field.const (-10))).and
        (percentageDeviation.lte (Field.const 10))) (Field.const 4))
    |>.replaceWhere ((percentageDeviation.gt (Field.const 10)).and
        (percentageDeviation.lte (Field.const 20))) (Field.const 5))
    |>.replaceWhere ((percentageDeviation.gt (Field.const 20)).and
        (percentageDeviation.lte (Field.const 30))) (Field.const 6))
    |>.replaceWhere (percentageDeviation.gt (Field.const 30)) (Field.const 7)

/-- The seven (test, replacement value) pairs of the chain, in script order. -/
def whereRules (percentageDeviation : Field P K) : List (Field P K × K) :=
  [ (percentageDeviation.lt (Field.const (-30)), 1),
    ((percentageDeviation.gte (Field.const (-30))).and
        (percentageDeviation.lt (Field.const (-20))), 2),
    ((percentageDeviation.gte (Field.const (-20))).and
        (percentageDeviation.lt (Field.const (-10))), 3),
    ((percentageDeviation.gte (Field.const (-10))).and
        (percentageDeviation.lte (Field.const 10)), 4),
    ((percentageDeviation.gt (Field.const 10)).and
        (percentageDeviation.lte (Field.const 20)), 5),
    ((percentageDeviation.gt (Field.const 20)).and
        (percentageDeviation.lte (Field.const 30)), 6),
    (percentageDeviation.gt (Field.const 30), 7) ]

/-- A chain of `where` replacements applied left to right to `input`. -/
def applyWheres (rules : List (Field P K × K)) (input : Field P K) : Field P K :=
  rules.foldl (fun img r => img.replaceWhere r.1 (Field.const r.2)) input

/-- The category table of the specification (section 4.4), row by row; `0`
stands for "no row applies". -/
def categoryTable (p : K) : K :=
  if p < -30 then 1
  else if -30 ≤ p ∧ p < -20 then 2
  else if -20 ≤ p ∧ p < -10 then 3
  else if -10 ≤ p ∧ p ≤ 10 then 4
  else if 10 < p ∧ p ≤ 20 then 5
  else if 20 < p ∧ p ≤ 30 then 6
  else if p > 30 then 7
  else 0

/-- Number of rules of a chain whose test is non-zero at a pixel. -/
def matchingRules (rules : List (Field P K × K)) (px : P) : Nat :=
  (rules.filter (fun r => decide (∃ t, r.1 px = some t ∧ t ≠ 0))).length

end Classification

/-! ## Area by rainfall condition (script lines 239-250) -/

section Zonal

variable {P K : Type} [LinearOrderedField K]

/-- Script line 240: `ee.Image.pixelArea().divide(1000000)`; `pixelArea` is the
area of each pixel in square metres, nowhere masked. -/
def areaImage (pixelArea : P → K) : Field P K :=
  Field.divide (fun px => some (pixelArea px)) (Field.const 1000000)

/-- Script lines 112 and 249: `maxPixels: 1e9`. -/
def maxPixels : Nat := 1000000000

/-- One step of the grouped sum: `v` is added to the accumulator of group `k`,
a new group is opened when `k` has none.  Groups are kept by ascending key. -/
def addToGroup (k v : K) : List (K × K) → List (K × K)
  | [] => [(k, v)]
  | (k1, s) :: rest =>
    if k = k1 then (k1, s + v) :: rest
    else if k < k1 then (k, v) :: (k1, s) :: rest
    else (k1, s) :: addToGroup k v rest

/-- The grouped sum at one pixel `pw.1` of weight `pw.2` of the two-band image
`conditions.addBands(areaImage)`: the pixel takes part when both bands are
valid there, its weighted area going to the group of its `conditions` value. -/
def groupStep (conditions areaImage : Field P K) (groups : List (K × K)) (pw : P × K) :
    List (K × K) :=
  match conditions pw.1, areaImage pw.1 with
  | some k, some a => addToGroup k (pw.2 * a) groups
  | _, _ => groups

/-- Script lines 242-250:
`conditions.addBands(areaImage).reduceRegion(sum().group(groupField 0), studyArea, ...)`.
`studyArea` lists the pixels of the region at the reduction scale, each with
its weight in the reduction.  A pixel takes part when both bands are valid
there: its weighted area is added to the group of its `conditions` value.
The result is a list of (condition, sum) pairs; the reduction fails when the
region has more than `maxPixels` pixels. -/
def conditionAreas (conditions areaImage : Field P K) (studyArea : List (P × K)) :
    Option (List (K × K)) :=
  if studyArea.length > maxPixels then none
  else some (studyArea.foldl (groupStep conditions areaImage) [])

/-- The total weighted area, in km², of the pixels of the region at which the
classification is valid. -/
def totalValidArea (conditions : Field P K) (pixelArea : P → K) (studyArea : List (P × K)) : K :=
  ((studyArea.filter (fun pw => (conditions pw.1).isSome)).map
    (fun pw => pw.2 * (pixelArea pw.1 / 1000000))).sum

end Zonal

/-! ## Concrete inputs -/

/-- An archive of one image, stamped 31 December 1995 (midnight UTC), whose
`precipitation` is 5 at the single pixel of the grid. -/
def december31Archive : List (Image Unit ℚ) :=
  [{ time_start := Date.fromYMD 1995 12 31, precipitation := Field.const 5 }]

/-- An archive of two images of 1995: one stamped 26 December with
`precipitation` 3 and one stamped 31 December with `precipitation` 5. -/
def yearEndArchive : List (Image Unit ℚ) :=
  [{ time_start := Date.fromYMD 1995 12 26, precipitation := Field.const 3 },
   { time_start := Date.fromYMD 1995 12 31, precipitation := Field.const 5 }]

/-- An archive of the last two pentads of 1995, stamped 21 and 26 December. -/
def lastPentadsArchive : List (Image Unit ℚ) :=
  [{ time_start := Date.fromYMD 1995 12 21, precipitation := Field.const 2 },
   { time_start := Date.fromYMD 1995 12 26, precipitation := Field.const 3 }]

/-- The scenario of three annual totals 100, 200 and 300 over a region of a
single pixel. -/
def threeYearCollection (K : Type) [LinearOrderedField K] : List (AnnualImage Unit K) :=
  [{ year := 1991, precipitation := Field.const 100 },
   { year := 1992, precipitation := Field.const 200 },
   { year := 1993, precipitation := Field.const 300 }]

end CHIRPS

/-! # Theorems -/

namespace CHIRPS

/-! ## Classification -/

section ClassificationProofs

variable {P K : Type} [LinearOrderedField K]

theorem ofProp_ne_zero (c : Prop) [Decidable c] : (Pixel.ofProp c : K) ≠ 0 ↔ c := by
  unfold Pixel.ofProp; split_ifs <;> simp [*]

theorem ofProp_congr {c d : Prop} [Decidable c] [Decidable d] (h : c ↔ d) :
    (Pixel.ofProp c : K) = Pixel.ofProp d := by
  unfold Pixel.ofProp; simp only [h]

/-- Every value lies in one row of the table, and the row fixes the table value. -/
theorem categoryTable_cases (p : K) :
    (p < -30 ∧ categoryTable p = 1) ∨ ((-30 ≤ p ∧ p < -20) ∧ categoryTable p = 2) ∨
    ((-20 ≤ p ∧ p < -10) ∧ categoryTable p = 3) ∨ ((-10 ≤ p ∧ p ≤ 10) ∧ categoryTable p = 4) ∨
    ((10 < p ∧ p ≤ 20) ∧ categoryTable p = 5) ∨ ((20 < p ∧ p ≤ 30) ∧ categoryTable p = 6) ∨
    (30 < p ∧ categoryTable p = 7) := by
  unfold categoryTable
  rcases lt_or_le p (-30) with h1 | h1
  · exact Or.inl ⟨h1, if_pos h1⟩
  rw [if_neg (not_lt.mpr h1)]
  rcases lt_or_le p (-20) with h2 | h2
  · exact Or.inr (Or.inl ⟨⟨h1, h2⟩, if_pos ⟨h1, h2⟩⟩)
  rw [if_neg (fun c => absurd c.2 (not_lt.mpr h2))]
  rcases lt_or_le p (-10) with h3 | h3
  · exact Or.inr (Or.inr (Or.inl ⟨⟨h2, h3⟩, if_pos ⟨h2, h3⟩⟩))
  rw [if_neg (fun c => absurd c.2 (not_lt.mpr h3))]
  rcases le_or_lt p 10 with h4 | h4
  · exact Or.inr (Or.inr (Or.inr (Or.inl ⟨⟨h3, h4⟩, if_pos ⟨h3, h4⟩⟩)))
  rw [if_neg (fun c => absurd c.2 (not_le.mpr h4))]
  rcases le_or_lt p 20 with h5 | h5
  · exact Or.inr (Or.inr (Or.inr (Or.inr (Or.inl ⟨⟨h4, h5⟩, if_pos ⟨h4, h5⟩⟩))))
  rw [if_neg (fun c => absurd c.2 (not_le.mpr h5))]
  rcases le_or_lt p 30 with h6 | h6
  · exact Or.inr (Or.inr (Or.inr (Or.inr (Or.inr (Or.inl ⟨⟨h5, h6⟩, if_pos ⟨h5, h6⟩⟩)))))
  rw [if_neg (fun c => absurd c.2 (not_le.mpr h6))]
  exact Or.inr (Or.inr (Or.inr (Or.inr (Or.inr (Or.inr ⟨h6, if_pos h6⟩)))))

theorem categoryTable_eq_one (p : K) : categoryTable p = 1 ↔ p < -30 := by
  rcases categoryTable_cases p with ⟨h, e⟩ | ⟨h, e⟩ | ⟨h, e⟩ | ⟨h, e⟩ | ⟨h, e⟩ | ⟨h, e⟩ | ⟨h, e⟩ <;>
    rw [e] <;>
  first
  | exact ⟨fun _ => h, fun _ => rfl⟩
  | exact ⟨fun e => absurd e (by norm_num), fun c => by exfalso; linarith⟩

theorem categoryTable_eq_two (p : K) : categoryTable p = 2 ↔ -30 ≤ p ∧ p < -20 := by
  rcases categoryTable_cases p with ⟨h, e⟩ | ⟨h, e⟩ | ⟨h, e⟩ | ⟨h, e⟩ | ⟨h, e⟩ | ⟨h, e⟩ | ⟨h, e⟩ <;>
    rw [e] <;>
  first
  | exact ⟨fun _ => h, fun _ => rfl⟩
  | exact ⟨fun e => absurd e (by norm_num), fun c => by exfalso; linarith⟩

theorem categoryTable_eq_three (p : K) : categoryTable p = 3 ↔ -20 ≤ p ∧ p < -10 := by
  rcases categoryTable_cases p with ⟨h, e⟩ | ⟨h, e⟩ | ⟨h, e⟩ | ⟨h, e⟩ | ⟨h, e⟩ | ⟨h, e⟩ | ⟨h, e⟩ <;>
    rw [e] <;>
  first
  | exact ⟨fun _ => h, fun _ => rfl⟩
  | exact ⟨fun e => absurd e (by norm_num), fun c => by exfalso; linarith⟩

theorem categoryTable_eq_four (p : K) : categoryTable p = 4 ↔ -10 ≤ p ∧ p ≤ 10 := by
  rcases categoryTable_cases p with ⟨h, e⟩ | ⟨h, e⟩ | ⟨h, e⟩ | ⟨h, e⟩ | ⟨h, e⟩ | ⟨h, e⟩ | ⟨h, e⟩ <;>
    rw [e] <;>
  first
  | exact ⟨fun _ => h, fun _ => rfl⟩
  | exact ⟨fun e => absurd e (by norm_num), fun c => by exfalso; linarith⟩

theorem categoryTable_eq_five (p : K) : categoryTable p = 5 ↔ 10 < p ∧ p ≤ 20 := by
  rcases categoryTable_cases p with ⟨h, e⟩ | ⟨h, e⟩ | ⟨h, e⟩ | ⟨h, e⟩ | ⟨h, e⟩ | ⟨h, e⟩ | ⟨h, e⟩ <;>
    rw [e] <;>
  first
  | exact ⟨fun _ => h, fun _ => rfl⟩
  | exact ⟨fun e => absurd e (by norm_num), fun c => by exfalso; linarith⟩

theorem categoryTable_eq_six (p : K) : categoryTable p = 6 ↔ 20 < p ∧ p ≤ 30 := by
  rcases categoryTable_cases p with ⟨h, e⟩ | ⟨h, e⟩ | ⟨h, e⟩ | ⟨h, e⟩ | ⟨h, e⟩ | ⟨h, e⟩ | ⟨h, e⟩ <;>
    rw [e] <;>
  first
  | exact ⟨fun _ => h, fun _ => rfl⟩
  | exact ⟨fun e => absurd e (by norm_num), fun c => by exfalso; linarith⟩

theorem categoryTable_eq_seven (p : K) : categoryTable p = 7 ↔ p > 30 := by
  rcases categoryTable_cases p with ⟨h, e⟩ | ⟨h, e⟩ | ⟨h, e⟩ | ⟨h, e⟩ | ⟨h, e⟩ | ⟨h, e⟩ | ⟨h, e⟩ <;>
    rw [e] <;>
  first
  | exact ⟨fun _ => h, fun _ => rfl⟩
  | exact ⟨fun e => absurd e (by norm_num), fun c => by exfalso; linarith⟩

theorem cmp_const_apply (pd : Field P K) (px : P) (p c : K) (h : pd px = some p) :
    (pd.lt (Field.const c)) px = some (Pixel.ofProp (p < c)) ∧
    (pd.lte (Field.const c)) px = some (Pixel.ofProp (p ≤ c)) ∧
    (pd.gt (Field.const c)) px = some (Pixel.ofProp (p > c)) ∧
    (pd.gte (Field.const c)) px = some (Pixel.ofProp (p ≥ c)) := by
  simp only [Field.lt, Field.lte, Field.gt, Field.gte, Field.const, h, Pixel.lt, Pixel.lte,
    Pixel.gt, Pixel.gte, Pixel.lift2, and_self]

theorem and_apply (f g : Field P K) (px : P) (c d : Prop) [Decidable c] [Decidable d]
    (hf : f px = some (Pixel.ofProp c)) (hg : g px = some (Pixel.ofProp d)) :
    (f.and g) px = some (Pixel.ofProp (c ∧ d)) := by
  simp only [Field.and, hf, hg, Pixel.and, Pixel.lift2]
  exact congrArg some (ofProp_congr (and_congr (ofProp_ne_zero c) (ofProp_ne_zero d)))

/-- At a valid pixel the test of each rule is 1 exactly when the table names
the rule's category, and 0 otherwise. -/
theorem whereRules_test (pd : Field P K) (px : P) (p : K) (h : pd px = some p) :
    ∀ r ∈ whereRules pd, r.1 px = some (Pixel.ofProp (categoryTable p = r.2)) := by
  intro r hr
  simp only [whereRules, List.mem_cons, List.mem_singleton, List.not_mem_nil, or_false] at hr
  rcases hr with rfl | rfl | rfl | rfl | rfl | rfl | rfl
  · exact (cmp_const_apply pd px p _ h).1.trans
      (congrArg some (ofProp_congr (categoryTable_eq_one p).symm))
  · exact (and_apply _ _ px _ _ (cmp_const_apply pd px p _ h).2.2.2
      (cmp_const_apply pd px p _ h).1).trans
      (congrArg some (ofProp_congr (categoryTable_eq_two p).symm))
  · exact (and_apply _ _ px _ _ (cmp_const_apply pd px p _ h).2.2.2
      (cmp_const_apply pd px p _ h).1).trans
      (congrArg some (ofProp_congr (categoryTable_eq_three p).symm))
  · exact (and_apply _ _ px _ _ (cmp_const_apply pd px p _ h).2.2.2
      (cmp_const_apply pd px p _ h).2.1).trans
      (congrArg some (ofProp_congr (categoryTable_eq_four p).symm))
  · exact (and_apply _ _ px _ _ (cmp_const_apply pd px p _ h).2.2.1
      (cmp_const_apply pd px p _ h).2.1).trans
      (congrArg some (ofProp_congr (categoryTable_eq_five p).symm))
  · exact (and_apply _ _ px _ _ (cmp_const_apply pd px p _ h).2.2.1
      (cmp_const_apply pd px p _ h).2.1).trans
      (congrArg some (ofProp_congr (categoryTable_eq_six p).symm))
  · exact (cmp_const_apply pd px p _ h).2.2.1.trans
      (congrArg some (ofProp_congr (categoryTable_eq_seven p).symm))

theorem applyWheres_cons (r : Field P K × K) (rs : List (Field P K × K)) (acc : Field P K) :
    applyWheres (r :: rs) acc = applyWheres rs (acc.replaceWhere r.1 (Field.const r.2)) := rfl

/-- One replacement whose test is the indicator of `v = r.2`. -/
theorem replaceWhere_indicator (acc : Field P K) (r : Field P K × K) (px : P) (a v : K)
    (hacc : acc px = some a) (hr : r.1 px = some (Pixel.ofProp (v = r.2))) :
    (acc.replaceWhere r.1 (Field.const r.2)) px = if v = r.2 then some v else some a := by
  simp only [Field.replaceWhere, Field.const, hacc, hr, Pixel.replaceWhere, ofProp_ne_zero]
  split_ifs with hv
  · rw [hv]
  · rfl

/-- Once the pixel holds `v`, a chain of indicator rules leaves it at `v`. -/
theorem applyWheres_keep (v : K) (px : P) :
    ∀ (rs : List (Field P K × K)) (acc : Field P K),
      (∀ r ∈ rs, r.1 px = some (Pixel.ofProp (v = r.2))) → acc px = some v →
      applyWheres rs acc px = some v := by
  intro rs
  induction rs with
  | nil => intro acc _ hacc; exact hacc
  | cons r rs ih =>
    intro acc hrs hacc
    rw [applyWheres_cons]
    apply ih _ (fun r' hr' => hrs r' (List.mem_cons_of_mem _ hr'))
    rw [replaceWhere_indicator acc r px v v hacc (hrs r (List.mem_cons_self _ _))]
    split_ifs <;> rfl

/-- A chain of indicator rules that contains a rule for `v` ends at `v`. -/
theorem applyWheres_hit (v : K) (px : P) :
    ∀ (rs : List (Field P K × K)) (acc : Field P K) (a : K),
      (∀ r ∈ rs, r.1 px = some (Pixel.ofProp (v = r.2))) → acc px = some a →
      (∃ r ∈ rs, r.2 = v) → applyWheres rs acc px = some v := by
  intro rs
  induction rs with
  | nil => intro acc a _ _ hex; obtain ⟨r, hr, _⟩ := hex; cases hr
  | cons r rs ih =>
    intro acc a hrs hacc hex
    rw [applyWheres_cons]
    have hstep := replaceWhere_indicator acc r px a v hacc (hrs r (List.mem_cons_self _ _))
    by_cases hv : v = r.2
    · rw [if_pos hv] at hstep
      exact applyWheres_keep v px rs _ (fun r' hr' => hrs r' (List.mem_cons_of_mem _ hr')) hstep
    · rw [if_neg hv] at hstep
      obtain ⟨r', hr', hr'v⟩ := hex
      rcases List.mem_cons.mp hr' with rfl | hmem
      · exact absurd hr'v.symm hv
      · exact ih _ a (fun r'' hr'' => hrs r'' (List.mem_cons_of_mem _ hr'')) hstep
          ⟨r', hmem, hr'v⟩

theorem conditions_eq_applyWheres (pd : Field P K) :
    conditions pd = applyWheres (whereRules pd) pd := rfl

theorem categoryTable_mem (p : K) : categoryTable p ∈ ([1, 2, 3, 4, 5, 6, 7] : List K) := by
  rcases categoryTable_cases p with ⟨_, e⟩ | ⟨_, e⟩ | ⟨_, e⟩ | ⟨_, e⟩ | ⟨_, e⟩ | ⟨_, e⟩ | ⟨_, e⟩ <;>
    rw [e] <;> simp

theorem whereRules_values (pd : Field P K) :
    (whereRules pd).map Prod.snd = [1, 2, 3, 4, 5, 6, 7] := rfl

theorem whereRules_has (pd : Field P K) (p : K) : ∃ r ∈ whereRules pd, r.2 = categoryTable p := by
  have h := categoryTable_mem p
  rw [← whereRules_values pd, List.mem_map] at h
  exact h

theorem matchingRules_eq_one (pd : Field P K) (px : P) (p : K) (h : pd px = some p) :
    matchingRules (whereRules pd) px = 1 := by
  have hcongr : (whereRules pd).filter (fun r => decide (∃ t, r.1 px = some t ∧ t ≠ 0)) =
      (whereRules pd).filter (fun r => decide (categoryTable p = r.2)) := by
    apply List.filter_congr
    intro r hr
    rw [whereRules_test pd px p h r hr]
    simp only [Option.some.injEq, exists_eq_left', ofProp_ne_zero]
  unfold matchingRules
  rw [hcongr]
  rcases categoryTable_cases p with ⟨_, e⟩ | ⟨_, e⟩ | ⟨_, e⟩ | ⟨_, e⟩ | ⟨_, e⟩ | ⟨_, e⟩ | ⟨_, e⟩ <;>
    rw [e] <;> norm_num [whereRules, List.filter_cons]

theorem conditions_apply (pd : Field P K) (px : P) (p : K) (h : pd px = some p) :
    ∀ rules : List (Field P K × K), rules.Perm (whereRules pd) →
      applyWheres rules pd px = some (categoryTable p) := by
  intro rules hperm
  refine applyWheres_hit (categoryTable p) px rules pd p
    (fun r hr => whereRules_test pd px p h r (hperm.subset hr)) h ?_
  obtain ⟨r, hr, hv⟩ := whereRules_has pd p
  exact ⟨r, hperm.symm.subset hr, hv⟩

theorem conditions_const (px : P) (p : K) :
    conditions (Field.const p) px = some (categoryTable p) :=
  conditions_apply (Field.const p) px p rfl (whereRules (Field.const p)) (List.Perm.refl _)

/-- C1.  At a pixel where the percentage deviation has the value `p`, the chain
of seven `where` replacements yields the category of the table: 1 if `p < -30`,
2 if `-30 ≤ p < -20`, 3 if `-20 ≤ p < -10`, 4 if `-10 ≤ p ≤ 10`, 5 if
`10 < p ≤ 20`, 6 if `20 < p ≤ 30`, 7 if `p > 30`; the code is one of 1..7;
exactly one of the seven tests is non-zero at the pixel; and the seven
replacements applied in any order give the same result.  The boundary values
map as -30 to 2, -20 to 3, -10 to 4, 10 to 4, 20 to 5 and 30 to 6. -/
theorem conditions_follows_table (pd : Field P K) (px : P) (p : K) (h : pd px = some p) :
    conditions pd px = some (categoryTable p) ∧
    categoryTable p ∈ ([1, 2, 3, 4, 5, 6, 7] : List K) ∧
    ((categoryTable p = 1 ↔ p < -30) ∧ (categoryTable p = 2 ↔ -30 ≤ p ∧ p < -20) ∧
      (categoryTable p = 3 ↔ -20 ≤ p ∧ p < -10) ∧ (categoryTable p = 4 ↔ -10 ≤ p ∧ p ≤ 10) ∧
      (categoryTable p = 5 ↔ 10 < p ∧ p ≤ 20) ∧ (categoryTable p = 6 ↔ 20 < p ∧ p ≤ 30) ∧
      (categoryTable p = 7 ↔ p > 30)) ∧
    matchingRules (whereRules pd) px = 1 ∧
    (∀ rules : List (Field P K × K), rules.Perm (whereRules pd) →
      applyWheres rules pd px = conditions pd px) ∧
    (conditions (Field.const (-30 : K)) px = some 2 ∧
      conditions (Field.const (-20 : K)) px = some 3 ∧
      conditions (Field.const (-10 : K)) px = some 4 ∧
      conditions (Field.const (10 : K)) px = some 4 ∧
      conditions (Field.const (20 : K)) px = some 5 ∧
      conditions (Field.const (30 : K)) px = some 6) := by
  have hc : conditions pd px = some (categoryTable p) :=
    conditions_apply pd px p h (whereRules pd) (List.Perm.refl _)
  refine ⟨hc, categoryTable_mem p, ⟨categoryTable_eq_one p, categoryTable_eq_two p,
    categoryTable_eq_three p, categoryTable_eq_four p, categoryTable_eq_five p,
    categoryTable_eq_six p, categoryTable_eq_seven p⟩, matchingRules_eq_one pd px p h, ?_, ?_⟩
  · intro rules hperm
    rw [hc]
    exact conditions_apply pd px p h rules hperm
  · refine ⟨?_, ?_, ?_, ?_, ?_, ?_⟩
    · rw [conditions_const, (categoryTable_eq_two _).mpr (by norm_num)]
    · rw [conditions_const, (categoryTable_eq_three _).mpr (by norm_num)]
    · rw [conditions_const, (categoryTable_eq_four _).mpr (by norm_num)]
    · rw [conditions_const, (categoryTable_eq_four _).mpr (by norm_num)]
    · rw [conditions_const, (categoryTable_eq_five _).mpr (by norm_num)]
    · rw [conditions_const, (categoryTable_eq_six _).mpr (by norm_num)]

/-- Witness of C1 at the boundary value -30 over the rationals. -/
theorem conditions_follows_table_witness :
    (fun _ : Unit => some (-30 : ℚ)) () = some (-30) ∧
    conditions (fun _ : Unit => some (-30 : ℚ)) () = some 2 ∧
    matchingRules (whereRules (fun _ : Unit => some (-30 : ℚ))) () = 1 :=
  ⟨rfl,
    (conditions_follows_table (fun _ : Unit => some (-30 : ℚ)) () (-30) rfl).1.trans
      (congrArg some ((categoryTable_eq_two (-30 : ℚ)).mpr (by norm_num))),
    (conditions_follows_table (fun _ : Unit => some (-30 : ℚ)) () (-30) rfl).2.2.2.1⟩

/-- C9.  A pixel at which the percentage deviation is masked is masked in
`conditions` (it receives no category, in particular not category 4), and a
pixel with a valid percentage deviation receives one of the codes 1..7. -/
theorem conditions_keeps_mask (pd : Field P K) (px : P) :
    (conditions pd px = none ↔ pd px = none) ∧
    (∀ p : K, pd px = some p →
      ∃ k ∈ ([1, 2, 3, 4, 5, 6, 7] : List K), conditions pd px = some k) := by
  have hvalid : ∀ p : K, pd px = some p → conditions pd px = some (categoryTable p) :=
    fun p hp => conditions_apply pd px p hp (whereRules pd) (List.Perm.refl _)
  refine ⟨⟨fun hnone => ?_, fun hnone => ?_⟩, fun p hp => ⟨_, categoryTable_mem p, hvalid p hp⟩⟩
  · cases hpd : pd px with
    | none => rfl
    | some p => rw [hvalid p hpd] at hnone; cases hnone
  · simp only [conditions, Field.replaceWhere, hnone, Pixel.replaceWhere]

end ClassificationProofs

/-! ## Rainfall deviation -/

section DeviationProofs

variable {P K : Type} [LinearOrderedField K]

theorem absoluteDeviation_apply (c m : Field P K) (px : P) (cv mv : K)
    (hc : c px = some cv) (hm : m px = some mv) :
    absoluteDeviation c m px = some (cv - mv) := by
  simp only [absoluteDeviation, Field.subtract, Pixel.subtract, Pixel.lift2, hc, hm]

theorem percentageDeviation_apply (c m : Field P K) (px : P) (cv mv : K)
    (hc : c px = some cv) (hm : m px = some mv) :
    percentageDeviation c m px = some ((if mv = 0 then 0 else (cv - mv) / mv) * 100) := by
  simp only [percentageDeviation, Field.multiply, Field.divide, Field.subtract, Field.const,
    Pixel.multiply, Pixel.divide, Pixel.subtract, Pixel.lift2, hc, hm]

theorem zScore_apply (c m s : Field P K) (px : P) (cv mv sv : K)
    (hc : c px = some cv) (hm : m px = some mv) (hs : s px = some sv) :
    zScore c m s px = some (if sv = 0 then 0 else (cv - mv) / sv) := by
  simp only [zScore, Field.divide, Field.subtract, Pixel.divide, Pixel.subtract, Pixel.lift2,
    hc, hm, hs]

/-- C2.  At a pixel where the current total, the baseline mean and the baseline
standard deviation are valid, `absoluteDeviation` is current minus mean, and
the two other fields are derived from that same value: `percentageDeviation`
is it divided by the mean times 100 where the mean is not 0, `zScore` is it
divided by the standard deviation where that is not 0. -/
theorem deviation_fields_agree (c m s : Field P K) (px : P) (cv mv sv : K)
    (hc : c px = some cv) (hm : m px = some mv) (hs : s px = some sv) :
    ∃ a : K, absoluteDeviation c m px = some a ∧ a = cv - mv ∧
      (mv ≠ 0 → percentageDeviation c m px = some (a / mv * 100)) ∧
      (sv ≠ 0 → zScore c m s px = some (a / sv)) := by
  refine ⟨cv - mv, absoluteDeviation_apply c m px cv mv hc hm, rfl, fun hmv => ?_, fun hsv => ?_⟩
  · rw [percentageDeviation_apply c m px cv mv hc hm, if_neg hmv]
  · rw [zScore_apply c m s px cv mv sv hc hm hs, if_neg hsv]

/-- Witness of C2: current total 300, mean 200, standard deviation 100. -/
theorem deviation_fields_agree_witness :
    ∃ a : ℚ, absoluteDeviation (Field.const 300) (Field.const 200) () = some a ∧ a = 300 - 200 ∧
      ((200 : ℚ) ≠ 0 → percentageDeviation (Field.const 300) (Field.const 200) () =
        some (a / 200 * 100)) ∧
      ((100 : ℚ) ≠ 0 → zScore (Field.const 300) (Field.const 200) (Field.const 100) () =
        some (a / 100)) :=
  deviation_fields_agree (Field.const 300) (Field.const 200) (Field.const 100) () 300 200 100
    rfl rfl rfl

/-- C4, as stated, fails: with a baseline mean of exactly 0 the percentage
deviation is the number 0, not a masked pixel, and with a standard deviation
of exactly 0 the z-score is the number 0. -/
theorem zero_divisor_is_not_masked :
    (Field.const (0 : ℚ) : Field Unit ℚ) () = some 0 ∧
    percentageDeviation (Field.const (5 : ℚ)) (Field.const 0) () = some 0 ∧
    percentageDeviation (Field.const (5 : ℚ)) (Field.const 0) () ≠ none ∧
    zScore (Field.const (5 : ℚ)) (Field.const 3) (Field.const 0) () = some 0 ∧
    zScore (Field.const (5 : ℚ)) (Field.const 3) (Field.const 0) () ≠ none := by
  have hp := percentageDeviation_apply (Field.const (5 : ℚ)) (Field.const 0) () 5 0 rfl rfl
  have hz := zScore_apply (Field.const (5 : ℚ)) (Field.const 3) (Field.const 0) () 5 3 0
    rfl rfl rfl
  rw [if_pos rfl] at hp hz
  rw [zero_mul] at hp
  refine ⟨rfl, hp, ?_, hz, ?_⟩
  · rw [hp]; exact Option.some_ne_none _
  · rw [hz]; exact Option.some_ne_none _

/-- C4, amended.  At a pixel where the current total and the baseline mean are
valid, a mean of exactly 0 gives the percentage deviation the value 0; and a
standard deviation of exactly 0 gives the z-score the value 0.  Neither pixel
is masked. -/
theorem zero_divisor_gives_zero (c m s : Field P K) (px : P) (cv mv : K)
    (hc : c px = some cv) (hm : m px = some mv) :
    (mv = 0 → percentageDeviation c m px = some 0) ∧
    (s px = some 0 → zScore c m s px = some 0) := by
  refine ⟨fun hmv => ?_, fun hs => ?_⟩
  · rw [percentageDeviation_apply c m px cv mv hc hm, if_pos hmv, zero_mul]
  · rw [zScore_apply c m s px cv mv 0 hc hm hs, if_pos rfl]

/-- Witness of the amended C4: current total 5, mean 0, standard deviation 0. -/
theorem zero_divisor_gives_zero_witness :
    (Field.const (5 : ℚ) : Field Unit ℚ) () = some 5 ∧
    (Field.const (0 : ℚ) : Field Unit ℚ) () = some 0 ∧
    ((0 : ℚ) = 0 → percentageDeviation (Field.const (5 : ℚ)) (Field.const 0) () = some 0) ∧
    ((Field.const (0 : ℚ) : Field Unit ℚ) () = some 0 →
      zScore (Field.const (5 : ℚ)) (Field.const 0) (Field.const 0) () = some 0) :=
  ⟨rfl, rfl, zero_divisor_gives_zero (Field.const 5) (Field.const 0) (Field.const 0) () 5 0
    rfl rfl⟩

/-- C6.  At a pixel where the current total equals the baseline mean, the
absolute deviation is 0, the percentage deviation is 0 where the mean is not
0, the z-score is 0 where the standard deviation is not 0, and the pixel is
classified 4 (Normal). -/
theorem current_equal_to_mean (c m s : Field P K) (px : P) (v sv : K)
    (hc : c px = some v) (hm : m px = some v) (hs : s px = some sv) :
    absoluteDeviation c m px = some 0 ∧
    (v ≠ 0 → percentageDeviation c m px = some 0) ∧
    (sv ≠ 0 → zScore c m s px = some 0) ∧
    conditions (percentageDeviation c m) px = some 4 := by
  have hp : percentageDeviation c m px = some 0 := by
    rw [percentageDeviation_apply c m px v v hc hm, sub_self, zero_div, ite_self, zero_mul]
  refine ⟨?_, fun _ => hp, fun _ => ?_, ?_⟩
  · rw [absoluteDeviation_apply c m px v v hc hm, sub_self]
  · rw [zScore_apply c m s px v v sv hc hm hs, sub_self, zero_div, ite_self]
  · have hk : conditions (percentageDeviation c m) px = some (categoryTable 0) :=
      conditions_apply _ px 0 hp _ (List.Perm.refl _)
    rw [hk, (categoryTable_eq_four (0 : K)).mpr (by norm_num)]

/-- Witness of C6: current total and mean both 200, standard deviation 100. -/
theorem current_equal_to_mean_witness :
    absoluteDeviation (Field.const (200 : ℚ)) (Field.const 200) () = some 0 ∧
    ((200 : ℚ) ≠ 0 → percentageDeviation (Field.const (200 : ℚ)) (Field.const 200) () = some 0) ∧
    ((100 : ℚ) ≠ 0 →
      zScore (Field.const (200 : ℚ)) (Field.const 200) (Field.const 100) () = some 0) ∧
    conditions (percentageDeviation (Field.const (200 : ℚ)) (Field.const 200)) () = some 4 :=
  current_equal_to_mean (Field.const 200) (Field.const 200) (Field.const 100) () 200 100
    rfl rfl rfl

end DeviationProofs

/-! ## Dates and annual totals -/

section FilterProofs

variable {P K : Type}

theorem year_window_inside_baseline (y : Int) (hlo : 1991 ≤ y) (hhi : y ≤ 2020) :
    baselineStart ≤ Date.fromYMD y 1 1 ∧ Date.fromYMD y 12 31 ≤ baselineEnd := by
  simp only [baselineStart, baselineEnd, Date.fromYMD, daysFromCivil]
  norm_num
  omega

theorem filterDate_baselineCollection (chirpsCollection : List (Image P K)) (y : Int)
    (hlo : 1991 ≤ y) (hhi : y ≤ 2020) :
    filterDate (Date.fromYMD y 1 1) (Date.fromYMD y 12 31) (baselineCollection chirpsCollection) =
      filterDate (Date.fromYMD y 1 1) (Date.fromYMD y 12 31) chirpsCollection := by
  obtain ⟨h1, h2⟩ := year_window_inside_baseline y hlo hhi
  unfold baselineCollection filterDate
  rw [List.filter_filter]
  apply List.filter_congr
  intro img _
  by_cases hin : Date.fromYMD y 1 1 ≤ img.time_start ∧ img.time_start < Date.fromYMD y 12 31
  · have hb : baselineStart ≤ img.time_start ∧ img.time_start < baselineEnd :=
      ⟨le_trans h1 hin.1, lt_of_lt_of_le hin.2 h2⟩
    simp only [hin, hb, and_self, decide_True, Bool.and_self]
  · simp only [hin, decide_False, Bool.false_and]

theorem closed_filter_of_no_december_31 (series : List (Image P K)) (y : Int)
    (hnone : ∀ img ∈ series,
      ¬ (Date.fromYMD y 12 31 ≤ img.time_start ∧
        img.time_start < Date.fromYMD y 12 31 + millisPerDay)) :
    series.filter (fun img => decide (Date.fromYMD y 1 1 ≤ img.time_start ∧
        img.time_start < Date.fromYMD y 12 31 + millisPerDay)) =
      filterDate (Date.fromYMD y 1 1) (Date.fromYMD y 12 31) series := by
  unfold filterDate
  apply List.filter_congr
  intro img himg
  have h := hnone img himg
  have hpos : (0 : Int) < millisPerDay := by decide
  congr 1
  apply propext
  constructor
  · rintro ⟨h1, h2⟩
    refine ⟨h1, ?_⟩
    by_contra hge
    exact h ⟨not_lt.mp hge, h2⟩
  · rintro ⟨h1, h2⟩
    exact ⟨h1, by omega⟩

end FilterProofs

section CollectionProofs

variable {P K : Type} [LinearOrderedField K]

theorem years_eq : years =
    [1991, 1992, 1993, 1994, 1995, 1996, 1997, 1998, 1999, 2000, 2001, 2002, 2003, 2004, 2005,
     2006, 2007, 2008, 2009, 2010, 2011, 2012, 2013, 2014, 2015, 2016, 2017, 2018, 2019, 2020] := by
  decide

/-- C10.  For a baseline year `y` in 1991..2020 the per-year date filter picks
the same images from `baselineCollection` as from the unfiltered
`chirpsCollection`, so the annual total is the same with or without the outer
baseline filter; and the annual collection has 30 images, tagged 1991, 1992,
..., 2020 in this order. -/
theorem baseline_filter_keeps_year_windows (chirpsCollection : List (Image P K)) (y : Int)
    (hlo : 1991 ≤ y) (hhi : y ≤ 2020) :
    filterDate (Date.fromYMD y 1 1) (Date.fromYMD y 12 31) (baselineCollection chirpsCollection) =
      filterDate (Date.fromYMD y 1 1) (Date.fromYMD y 12 31) chirpsCollection ∧
    yearlySum (baselineCollection chirpsCollection) y = yearlySum chirpsCollection y ∧
    y ∈ years ∧
    (annualCollection (annualPrecipBaseline (baselineCollection chirpsCollection))).length = 30 ∧
    (annualCollection (annualPrecipBaseline (baselineCollection chirpsCollection))).map
        (fun img => img.year) =
      [1991, 1992, 1993, 1994, 1995, 1996, 1997, 1998, 1999, 2000, 2001, 2002, 2003, 2004, 2005,
       2006, 2007, 2008, 2009, 2010, 2011, 2012, 2013, 2014, 2015, 2016, 2017, 2018, 2019,
       2020] := by
  have hf := filterDate_baselineCollection chirpsCollection y hlo hhi
  refine ⟨hf, ?_, ?_, ?_, ?_⟩
  · simp only [yearlySum, hf]
  · rw [years_eq]
    have h : y = 1991 ∨ y = 1992 ∨ y = 1993 ∨ y = 1994 ∨ y = 1995 ∨ y = 1996 ∨ y = 1997 ∨
        y = 1998 ∨ y = 1999 ∨ y = 2000 ∨ y = 2001 ∨ y = 2002 ∨ y = 2003 ∨ y = 2004 ∨ y = 2005 ∨
        y = 2006 ∨ y = 2007 ∨ y = 2008 ∨ y = 2009 ∨ y = 2010 ∨ y = 2011 ∨ y = 2012 ∨ y = 2013 ∨
        y = 2014 ∨ y = 2015 ∨ y = 2016 ∨ y = 2017 ∨ y = 2018 ∨ y = 2019 ∨ y = 2020 := by omega
    simpa only [List.mem_cons, List.mem_singleton, List.not_mem_nil, or_false] using h
  · simp only [annualCollection, annualPrecipBaseline, List.length_map, years_eq]
    rfl
  · simp only [annualCollection, annualPrecipBaseline, List.map_map, ← years_eq]
    exact List.map_id _

/-- Witness of C10: the year 1995 and the archive `december31Archive`. -/
theorem baseline_filter_keeps_year_windows_witness :
    ((1991 : Int) ≤ 1995 ∧ (1995 : Int) ≤ 2020) ∧
    filterDate (Date.fromYMD 1995 1 1) (Date.fromYMD 1995 12 31)
        (baselineCollection december31Archive) =
      filterDate (Date.fromYMD 1995 1 1) (Date.fromYMD 1995 12 31) december31Archive ∧
    yearlySum (baselineCollection december31Archive) 1995 = yearlySum december31Archive 1995 :=
  ⟨by decide,
    (baseline_filter_keeps_year_windows december31Archive 1995 (by decide) (by decide)).1,
    (baseline_filter_keeps_year_windows december31Archive 1995 (by decide) (by decide)).2.1⟩

theorem december_31_day (y : Int) (hlo : 1991 ≤ y) (hhi : y ≤ 2020) :
    dayOfMonth (daysFromCivil y 12 31) = 31 := by
  interval_cases y <;> decide

/-- An image stamped like a pentad does not fall on 31 December of a baseline year. -/
theorem pentad_not_on_december_31 (y t : Int) (hlo : 1991 ≤ y) (hhi : y ≤ 2020)
    (hp : isPentadStamp t = true) :
    ¬ (Date.fromYMD y 12 31 ≤ t ∧ t < Date.fromYMD y 12 31 + millisPerDay) := by
  rintro ⟨h1, h2⟩
  simp only [isPentadStamp, Bool.and_eq_true, decide_eq_true_eq] at hp
  obtain ⟨hmod, hday⟩ := hp
  have hdiv : t / millisPerDay = daysFromCivil y 12 31 := by
    unfold Date.fromYMD at h1 h2
    unfold millisPerDay at hmod h2 ⊢
    omega
  rw [hdiv, december_31_day y hlo hhi] at hday
  revert hday
  decide

/-- C5, as stated, fails: in `yearEndArchive` both images are stamped within the
closed year 1995, yet the annual total of 1995 built by the script is 3, the
image stamped on 31 December being left out, whereas the sum over the closed
interval from 1 January to 31 December is 8. -/
theorem yearlySum_leaves_out_december_31 :
    (∀ img ∈ yearEndArchive, Date.fromYMD 1995 1 1 ≤ img.time_start ∧
      img.time_start ≤ Date.fromYMD 1995 12 31) ∧
    (yearlySum (baselineCollection yearEndArchive) 1995).precipitation () = some 3 ∧
    aggregateYearClosed yearEndArchive 1995 () = some 8 := by
  refine ⟨by decide, ?_, ?_⟩
  · have hkeep : filterDate (Date.fromYMD 1995 1 1) (Date.fromYMD 1995 12 31)
        (baselineCollection yearEndArchive) =
        [{ time_start := Date.fromYMD 1995 12 26, precipitation := Field.const 3 }] := rfl
    simp only [yearlySum, hkeep]
    simp [collectionSum, Reducer.sum, validValues, Field.const]
  · have hkeep : yearEndArchive.filter (fun img =>
        decide (Date.fromYMD 1995 1 1 ≤ img.time_start ∧
          img.time_start < Date.fromYMD 1995 12 31 + millisPerDay)) = yearEndArchive := rfl
    unfold aggregateYearClosed
    rw [hkeep]
    simp [collectionSum, yearEndArchive, Reducer.sum, validValues, Field.const]
    norm_num

/-- C5, amended.  For a baseline year `y` in 1991..2020 the annual total built
for `y` is tagged `y` and is the per-pixel sum of exactly the images of the
archive stamped from 1 January of `y` (midnight, included) up to 31 December
of `y` (midnight, excluded).  Where no image of the archive is stamped on
31 December of `y`, this is the sum over the closed interval from 1 January to
31 December of `y`; that is the case for an archive stamped like the pentad
archive the script loads. -/
theorem yearlySum_half_open_window (chirpsCollection : List (Image P K)) (y : Int)
    (hlo : 1991 ≤ y) (hhi : y ≤ 2020) :
    (yearlySum (baselineCollection chirpsCollection) y).year = y ∧
    (yearlySum (baselineCollection chirpsCollection) y).precipitation =
      collectionSum (chirpsCollection.filter (fun img =>
        decide (Date.fromYMD y 1 1 ≤ img.time_start ∧ img.time_start < Date.fromYMD y 12 31))) ∧
    ((∀ img ∈ chirpsCollection,
        ¬ (Date.fromYMD y 12 31 ≤ img.time_start ∧
          img.time_start < Date.fromYMD y 12 31 + millisPerDay)) →
      (yearlySum (baselineCollection chirpsCollection) y).precipitation =
        aggregateYearClosed chirpsCollection y) ∧
    ((∀ img ∈ chirpsCollection, isPentadStamp img.time_start = true) →
      (yearlySum (baselineCollection chirpsCollection) y).precipitation =
        aggregateYearClosed chirpsCollection y) := by
  have hf := filterDate_baselineCollection chirpsCollection y hlo hhi
  have hsum : (yearlySum (baselineCollection chirpsCollection) y).precipitation =
      collectionSum (filterDate (Date.fromYMD y 1 1) (Date.fromYMD y 12 31) chirpsCollection) := by
    simp only [yearlySum, hf]
  have hclosed : (∀ img ∈ chirpsCollection,
        ¬ (Date.fromYMD y 12 31 ≤ img.time_start ∧
          img.time_start < Date.fromYMD y 12 31 + millisPerDay)) →
      (yearlySum (baselineCollection chirpsCollection) y).precipitation =
        aggregateYearClosed chirpsCollection y := by
    intro hnone
    rw [hsum]
    unfold aggregateYearClosed
    rw [closed_filter_of_no_december_31 chirpsCollection y hnone]
  refine ⟨rfl, hsum, hclosed, fun hpentad => hclosed (fun img himg => ?_)⟩
  exact pentad_not_on_december_31 y img.time_start hlo hhi (hpentad img himg)

/-- Witness of the amended C5: the year 1995 and the two last pentads of 1995. -/
theorem yearlySum_half_open_window_witness :
    ((1991 : Int) ≤ 1995 ∧ (1995 : Int) ≤ 2020) ∧
    (∀ img ∈ lastPentadsArchive, isPentadStamp img.time_start = true) ∧
    (yearlySum (baselineCollection lastPentadsArchive) 1995).precipitation =
      aggregateYearClosed lastPentadsArchive 1995 :=
  ⟨by decide, by decide,
    (yearlySum_half_open_window lastPentadsArchive 1995 (by decide) (by decide)).2.2.2
      (by decide)⟩

end CollectionProofs

/-! ## Baseline standard deviation -/

section StdDevProofs

variable {P : Type}

theorem stdDev_of_valid (vals : List (Pixel ℝ)) (x : ℝ) (xs : List ℝ)
    (h : validValues vals = x :: xs) :
    Reducer.mean vals = some ((x :: xs).sum / ((x :: xs).length : ℝ)) ∧
    Reducer.stdDev vals = some (Real.sqrt
      (((x :: xs).map (fun v => (v - (x :: xs).sum / ((x :: xs).length : ℝ)) ^ 2)).sum /
        ((x :: xs).length : ℝ))) := by
  constructor
  · simp only [Reducer.mean, h]
  · simp only [Reducer.stdDev, Reducer.variance, h, Option.map_some']

theorem sum_sq_nonneg (xs : List ℝ) (m : ℝ) : 0 ≤ (xs.map (fun v => (v - m) ^ 2)).sum := by
  apply List.sum_nonneg
  intro a ha
  obtain ⟨v, _, rfl⟩ := List.mem_map.mp ha
  exact sq_nonneg _

theorem threeYear_valid :
    validValues ((threeYearCollection ℝ).map (fun img => img.precipitation ())) =
      [100, 200, 300] := by
  simp [threeYearCollection, validValues, Field.const]

theorem threeYear_mean : thirtyYearMean (threeYearCollection ℝ) () = some 200 := by
  have h := (stdDev_of_valid _ _ _ threeYear_valid).1
  simp only [thirtyYearMean, h]
  norm_num

theorem threeYear_stdDev :
    standardDeviation (threeYearCollection ℝ) () = some (Real.sqrt (20000 / 3)) := by
  have h := (stdDev_of_valid _ _ _ threeYear_valid).2
  simp only [standardDeviation, h]
  norm_num

theorem sqrt_scenario : Real.sqrt (20000 / 3) ^ 2 = 20000 / 3 ∧ 0 < Real.sqrt (20000 / 3) :=
  ⟨Real.sq_sqrt (by norm_num), Real.sqrt_pos.mpr (by norm_num)⟩

theorem threeYear_zScore :
    zScore (Field.const 300) (thirtyYearMean (threeYearCollection ℝ))
        (standardDeviation (threeYearCollection ℝ)) () =
      some (100 / Real.sqrt (20000 / 3)) := by
  rw [@zScore_apply Unit ℝ _ (Field.const 300) (thirtyYearMean (threeYearCollection ℝ))
    (standardDeviation (threeYearCollection ℝ)) () 300 200 (Real.sqrt (20000 / 3)) rfl
    threeYear_mean threeYear_stdDev, if_neg (ne_of_gt sqrt_scenario.2)]
  norm_num

/-- C3, as stated, fails on the scenario of the claim: for the annual totals
100, 200, 300 the square of `standardDeviation` times `N - 1 = 2` is not the
sum of the squared deviations (20000), the standard deviation is not 100, and
the z-score of a current total of 300 is not 1. -/
theorem standardDeviation_is_not_sample :
    ∃ s : ℝ, standardDeviation (threeYearCollection ℝ) () = some s ∧
      s ^ 2 * (3 - 1) ≠ (100 - 200) ^ 2 + (200 - 200) ^ 2 + (300 - 200) ^ 2 ∧
      s ≠ 100 ∧
      zScore (Field.const 300) (thirtyYearMean (threeYearCollection ℝ))
        (standardDeviation (threeYearCollection ℝ)) () ≠ some 1 := by
  refine ⟨Real.sqrt (20000 / 3), threeYear_stdDev, ?_, ?_, ?_⟩
  · rw [sqrt_scenario.1]; norm_num
  · intro h
    have h2 := sqrt_scenario.1
    rw [h] at h2
    norm_num at h2
  · rw [threeYear_zScore]
    intro h
    have hz : (100 : ℝ) / Real.sqrt (20000 / 3) = 1 := Option.some.inj h
    have hs : Real.sqrt (20000 / 3) = 100 :=
      ((div_eq_one_iff_eq (ne_of_gt sqrt_scenario.2)).mp hz).symm
    have h2 := sqrt_scenario.1
    rw [hs] at h2
    norm_num at h2

/-- C3, amended.  At a pixel with at least one valid annual total,
`standardDeviation` is the population standard deviation of the `N` valid
annual totals: it is non-negative and its square times `N` is the sum of the
squared deviations from `thirtyYearMean`.  For the annual totals 100, 200, 300
and a current total of 300 the mean is 200, the standard deviation `s` has
`s ^ 2 * 3 = 20000` and the z-score `z` has `z ^ 2 * 2 = 3`. -/
theorem standardDeviation_is_population (annualCollection : List (AnnualImage P ℝ)) (px : P)
    (hne : validValues (annualCollection.map (fun img => img.precipitation px)) ≠ []) :
    (∃ mean s : ℝ, thirtyYearMean annualCollection px = some mean ∧
      standardDeviation annualCollection px = some s ∧ 0 ≤ s ∧
      s ^ 2 * ((validValues (annualCollection.map (fun img => img.precipitation px))).length : ℝ) =
        ((validValues (annualCollection.map (fun img => img.precipitation px))).map
          (fun x => (x - mean) ^ 2)).sum) ∧
    (thirtyYearMean (threeYearCollection ℝ) () = some 200 ∧
      ∃ s z : ℝ, standardDeviation (threeYearCollection ℝ) () = some s ∧ 0 < s ∧
        s ^ 2 * 3 = 20000 ∧
        zScore (Field.const 300) (thirtyYearMean (threeYearCollection ℝ))
          (standardDeviation (threeYearCollection ℝ)) () = some z ∧ 0 < z ∧
        z ^ 2 * 2 = 3) := by
  constructor
  · cases hv : validValues (annualCollection.map (fun img => img.precipitation px)) with
    | nil => exact absurd hv hne
    | cons x xs =>
      obtain ⟨hmean, hsd⟩ := stdDev_of_valid _ x xs hv
      refine ⟨_, _, hmean, hsd, Real.sqrt_nonneg _, ?_⟩
      have hlen : (0 : ℝ) < ((x :: xs).length : ℝ) := by
        rw [List.length_cons]; exact_mod_cast Nat.succ_pos _
      rw [Real.sq_sqrt (div_nonneg (sum_sq_nonneg _ _) hlen.le)]
      exact div_mul_cancel₀ _ (ne_of_gt hlen)
  · refine ⟨threeYear_mean, Real.sqrt (20000 / 3), 100 / Real.sqrt (20000 / 3), threeYear_stdDev,
      sqrt_scenario.2, ?_, threeYear_zScore, div_pos (by norm_num) sqrt_scenario.2, ?_⟩
    · rw [sqrt_scenario.1]; norm_num
    · rw [div_pow, sqrt_scenario.1]; norm_num

/-- Witness of the amended C3: the three annual totals 100, 200, 300. -/
theorem standardDeviation_is_population_witness :
    validValues ((threeYearCollection ℝ).map (fun img => img.precipitation ())) ≠ [] ∧
    ∃ mean s : ℝ, thirtyYearMean (threeYearCollection ℝ) () = some mean ∧
      standardDeviation (threeYearCollection ℝ) () = some s ∧ 0 ≤ s ∧
      s ^ 2 * ((validValues ((threeYearCollection ℝ).map
          (fun img => img.precipitation ()))).length : ℝ) =
        ((validValues ((threeYearCollection ℝ).map (fun img => img.precipitation ()))).map
          (fun x => (x - mean) ^ 2)).sum :=
  ⟨by rw [threeYear_valid]; exact List.cons_ne_nil _ _,
    (standardDeviation_is_population (threeYearCollection ℝ) ()
      (by rw [threeYear_valid]; exact List.cons_ne_nil _ _)).1⟩

end StdDevProofs

/-! ## Area by rainfall condition -/

section ZonalProofs

variable {P K : Type} [LinearOrderedField K]

theorem areaImage_apply (pixelArea : P → K) (px : P) :
    areaImage pixelArea px = some (pixelArea px / 1000000) := by
  simp only [areaImage, Field.divide, Field.const, Pixel.divide, Pixel.lift2]
  rw [if_neg (by norm_num)]

theorem addToGroup_sum (k v : K) (groups : List (K × K)) :
    ((addToGroup k v groups).map Prod.snd).sum = (groups.map Prod.snd).sum + v := by
  induction groups with
  | nil => simp [addToGroup]
  | cons g rest ih =>
    obtain ⟨k1, s⟩ := g
    simp only [addToGroup]
    split_ifs
    · simp only [List.map_cons, List.sum_cons]; ring
    · simp only [List.map_cons, List.sum_cons]; ring
    · simp only [List.map_cons, List.sum_cons, ih]; ring

theorem addToGroup_keys (k v : K) (groups : List (K × K)) (k2 : K) :
    k2 ∈ (addToGroup k v groups).map Prod.fst ↔ k2 = k ∨ k2 ∈ groups.map Prod.fst := by
  induction groups with
  | nil => simp [addToGroup]
  | cons g rest ih =>
    obtain ⟨k1, s⟩ := g
    simp only [addToGroup]
    split_ifs with h1 h2
    · subst h1
      simp only [List.map_cons, List.mem_cons]
      tauto
    · simp only [List.map_cons, List.mem_cons]
    · simp only [List.map_cons, List.mem_cons, ih]
      tauto

theorem addToGroup_sorted (k v : K) (groups : List (K × K))
    (h : (groups.map Prod.fst).Pairwise (fun a b => a < b)) :
    ((addToGroup k v groups).map Prod.fst).Pairwise (fun a b => a < b) := by
  induction groups with
  | nil => simp [addToGroup]
  | cons g rest ih =>
    obtain ⟨k1, s⟩ := g
    simp only [List.map_cons, List.pairwise_cons] at h
    simp only [addToGroup]
    split_ifs with h1 h2
    · simp only [List.map_cons, List.pairwise_cons]
      exact h
    · simp only [List.map_cons, List.pairwise_cons, List.mem_cons]
      refine ⟨fun a ha => ?_, h⟩
      rcases ha with rfl | ha
      · exact h2
      · exact lt_trans h2 (h.1 a ha)
    · simp only [List.map_cons, List.pairwise_cons]
      refine ⟨fun a ha => ?_, ih h.2⟩
      rcases (addToGroup_keys k v rest a).mp ha with rfl | ha
      · exact lt_of_le_of_ne (not_lt.mp h2) (fun e => h1 e.symm)
      · exact h.1 a ha

theorem groupStep_valid (conditions : Field P K) (pixelArea : P → K) (groups : List (K × K))
    (pw : P × K) (k : K) (hk : conditions pw.1 = some k) :
    groupStep conditions (areaImage pixelArea) groups pw =
      addToGroup k (pw.2 * (pixelArea pw.1 / 1000000)) groups := by
  simp only [groupStep, hk, areaImage_apply]

theorem groupStep_masked (conditions : Field P K) (pixelArea : P → K) (groups : List (K × K))
    (pw : P × K) (hk : conditions pw.1 = none) :
    groupStep conditions (areaImage pixelArea) groups pw = groups := by
  simp only [groupStep, hk]

/-- The grouped sum over a region: total, keys and key order of the result. -/
theorem foldl_groupStep (conditions : Field P K) (pixelArea : P → K) :
    ∀ (studyArea : List (P × K)) (groups : List (K × K)),
      (groups.map Prod.fst).Pairwise (fun a b => a < b) →
      (((studyArea.foldl (groupStep conditions (areaImage pixelArea)) groups).map Prod.snd).sum =
          (groups.map Prod.snd).sum + totalValidArea conditions pixelArea studyArea) ∧
      (∀ k : K, k ∈ (studyArea.foldl (groupStep conditions (areaImage pixelArea)) groups).map
          Prod.fst ↔ k ∈ groups.map Prod.fst ∨ ∃ pw ∈ studyArea, conditions pw.1 = some k) ∧
      ((studyArea.foldl (groupStep conditions (areaImage pixelArea)) groups).map
          Prod.fst).Pairwise (fun a b => a < b) := by
  intro studyArea
  induction studyArea with
  | nil =>
    intro groups hs
    simp [totalValidArea, hs]
  | cons pw rest ih =>
    intro groups hs
    rw [List.foldl_cons]
    cases hk : conditions pw.1 with
    | none =>
      rw [groupStep_masked conditions pixelArea groups pw hk]
      obtain ⟨h1, h2, h3⟩ := ih groups hs
      refine ⟨?_, fun k => ?_, h3⟩
      · rw [h1]
        simp [totalValidArea, List.filter_cons, hk]
      · rw [h2 k]
        simp only [List.mem_cons, exists_eq_or_imp, hk]
        simp
    | some kv =>
      rw [groupStep_valid conditions pixelArea groups pw kv hk]
      obtain ⟨h1, h2, h3⟩ := ih _ (addToGroup_sorted kv (pw.2 * (pixelArea pw.1 / 1000000)) groups hs)
      refine ⟨?_, fun k => ?_, h3⟩
      · rw [h1, addToGroup_sum]
        simp [totalValidArea, List.filter_cons, hk]
        ring
      · rw [h2 k, addToGroup_keys]
        simp only [List.mem_cons, exists_eq_or_imp, hk, Option.some.injEq]
        constructor
        · rintro ((rfl | h) | h)
          · exact Or.inr (Or.inl rfl)
          · exact Or.inl h
          · exact Or.inr (Or.inr h)
        · rintro (h | rfl | h)
          · exact Or.inl (Or.inr h)
          · exact Or.inl (Or.inl rfl)
          · exact Or.inr h

theorem conditionAreas_of_size (conditions areaImage : Field P K) (studyArea : List (P × K))
    (hsize : studyArea.length ≤ maxPixels) :
    conditionAreas conditions areaImage studyArea =
      some (studyArea.foldl (groupStep conditions areaImage) []) := by
  unfold conditionAreas
  rw [if_neg (not_lt.mpr hsize)]

theorem conditionAreas_some (conditions areaImage : Field P K) (studyArea : List (P × K))
    (groups : List (K × K)) (h : conditionAreas conditions areaImage studyArea = some groups) :
    studyArea.length ≤ maxPixels ∧
      studyArea.foldl (groupStep conditions areaImage) [] = groups := by
  unfold conditionAreas at h
  split_ifs at h with hbig
  exact ⟨not_lt.mp hbig, Option.some.inj h⟩

/-- C7, as stated, fails: over a region of one pixel classified 4 (percentage
deviation 0) the summary has the single entry for category 4; categories 1,
2, 3, 5, 6, 7 are left out, not reported with area 0. -/
theorem conditionAreas_omits_absent_categories :
    conditionAreas (conditions (Field.const (0 : ℚ))) (areaImage (fun _ : Unit => 1000000))
        [((), 1)] = some [(4, 1)] ∧
    ∀ k ∈ ([1, 2, 3, 5, 6, 7] : List ℚ), k ∉ ([((4 : ℚ), (1 : ℚ))].map Prod.fst) := by
  constructor
  · rw [conditionAreas_of_size _ _ _ (by decide)]
    have hk : conditions (Field.const (0 : ℚ)) (((), (1 : ℚ)) : Unit × ℚ).1 = some 4 := by
      rw [conditions_const, (categoryTable_eq_four (0 : ℚ)).mpr (by norm_num)]
    rw [List.foldl_cons, List.foldl_nil, groupStep_valid _ _ _ _ 4 hk]
    norm_num [addToGroup]
  · decide

/-- C7, amended.  Whenever the summary is returned, it has an entry for exactly
the categories that some pixel of the region is classified as, so a category
without a pixel in the region has no entry; and the summary is returned for
every region of at most `maxPixels` pixels. -/
theorem conditionAreas_keys (conditions : Field P K) (pixelArea : P → K)
    (studyArea : List (P × K)) :
    (∀ groups : List (K × K),
      conditionAreas conditions (areaImage pixelArea) studyArea = some groups →
      ∀ k : K, k ∈ groups.map Prod.fst ↔ ∃ pw ∈ studyArea, conditions pw.1 = some k) ∧
    (studyArea.length ≤ maxPixels →
      ∃ groups : List (K × K),
        conditionAreas conditions (areaImage pixelArea) studyArea = some groups) := by
  refine ⟨fun groups hgroups k => ?_, fun hsize => ⟨_, conditionAreas_of_size _ _ _ hsize⟩⟩
  obtain ⟨hsize, hfold⟩ := conditionAreas_some conditions (areaImage pixelArea) studyArea
    groups hgroups
  rw [← hfold, (foldl_groupStep conditions pixelArea studyArea [] List.Pairwise.nil).2.1 k]
  simp only [List.map_nil, List.not_mem_nil, false_or]

/-- Witness of the amended C7: one pixel of 1 km² classified 4. -/
theorem conditionAreas_keys_witness :
    ([((), (1 : ℚ))] : List (Unit × ℚ)).length ≤ maxPixels ∧
    ∃ groups : List (ℚ × ℚ),
      conditionAreas (conditions (Field.const (0 : ℚ))) (areaImage (fun _ : Unit => 1000000))
        [((), 1)] = some groups ∧
      ∀ k : ℚ, k ∈ groups.map Prod.fst ↔
        ∃ pw ∈ ([((), (1 : ℚ))] : List (Unit × ℚ)),
          conditions (Field.const (0 : ℚ)) pw.1 = some k :=
  ⟨by decide,
    ((conditionAreas_keys (conditions (Field.const (0 : ℚ))) (fun _ : Unit => 1000000)
      [((), 1)]).2 (by decide)).elim fun groups hgroups =>
      ⟨groups, hgroups,
        (conditionAreas_keys (conditions (Field.const (0 : ℚ))) (fun _ : Unit => 1000000)
          [((), 1)]).1 groups hgroups⟩⟩

/-- C8.  Whenever the summary is returned, the areas it reports add up to the
total (weighted) area in km² of the pixels of the region whose classification
is valid, and no category is reported twice: each valid pixel is counted in
exactly one group.  The summary is returned for every region of at most
`maxPixels` pixels. -/
theorem conditionAreas_total (conditions : Field P K) (pixelArea : P → K)
    (studyArea : List (P × K)) :
    (∀ groups : List (K × K),
      conditionAreas conditions (areaImage pixelArea) studyArea = some groups →
      (groups.map Prod.snd).sum = totalValidArea conditions pixelArea studyArea ∧
      (groups.map Prod.fst).Nodup) ∧
    (studyArea.length ≤ maxPixels →
      ∃ groups : List (K × K),
        conditionAreas conditions (areaImage pixelArea) studyArea = some groups) := by
  refine ⟨fun groups hgroups => ?_, fun hsize => ⟨_, conditionAreas_of_size _ _ _ hsize⟩⟩
  obtain ⟨hsize, hfold⟩ := conditionAreas_some conditions (areaImage pixelArea) studyArea
    groups hgroups
  obtain ⟨h1, _, h3⟩ := foldl_groupStep conditions pixelArea studyArea [] List.Pairwise.nil
  rw [← hfold]
  refine ⟨?_, h3.imp (fun hab => ne_of_lt hab)⟩
  rw [h1]
  simp only [List.map_nil, List.sum_nil, zero_add]

/-- Witness of C8: one pixel of 1 km² classified 4. -/
theorem conditionAreas_total_witness :
    ([((), (1 : ℚ))] : List (Unit × ℚ)).length ≤ maxPixels ∧
    ∃ groups : List (ℚ × ℚ),
      conditionAreas (conditions (Field.const (0 : ℚ))) (areaImage (fun _ : Unit => 1000000))
        [((), 1)] = some groups ∧
      (groups.map Prod.snd).sum =
        totalValidArea (conditions (Field.const (0 : ℚ))) (fun _ : Unit => 1000000) [((), 1)] ∧
      (groups.map Prod.fst).Nodup :=
  ⟨by decide,
    ((conditionAreas_total (conditions (Field.const (0 : ℚ))) (fun _ : Unit => 1000000)
      [((), 1)]).2 (by decide)).elim fun groups hgroups =>
      ⟨groups, hgroups,
        (conditionAreas_total (conditions (Field.const (0 : ℚ))) (fun _ : Unit => 1000000)
          [((), 1)]).1 groups hgroups⟩⟩

end ZonalProofs

end CHIRPS
